import Mathlib

/-!
Shallow embedding of the mtg-agent core (deck text store, mana-curve engine,
card-info cache) from `src/mtg_agent/deck_tools.py` and
`src/mtg_agent/scryfall_integration.py`, together with theorems settling the
specification claims.

Python strings are Lean `String`s; the handful of Python string primitives the
code uses (`str.strip`, `str.lower`, `str.split(' ', 1)`, `int(...)`,
`f.readlines()`, `f.writelines(...)`) are modelled over `List Char` so that
every definition evaluates by kernel reduction.  The models are ASCII-faithful:
Unicode case folding, the less common Python whitespace characters and
digit-grouping underscores in `int(...)` are not modelled, none of which the
deck format exercises.
-/

/-- Whitespace test used by the `str.strip` model. -/
def isSpaceChar (c : Char) : Bool := c.isWhitespace

/-- Python `str.strip()`: drop leading and trailing whitespace. -/
def pyStrip (s : String) : String :=
  ⟨((s.data.dropWhile isSpaceChar).reverse.dropWhile isSpaceChar).reverse⟩

/-- Python `str.rstrip()`: drop trailing whitespace. -/
def pyRstrip (s : String) : String :=
  ⟨(s.data.reverse.dropWhile isSpaceChar).reverse⟩

/-- Python `str.lower()` (ASCII case folding). -/
def pyLower (s : String) : String := ⟨s.data.map Char.toLower⟩

/-- Python `line.split(' ', 1)`: split at the first space, if any.
Returns `none` when the string contains no space (the `len(parts) != 2` case). -/
def splitFirstSpace : List Char → Option (List Char × List Char)
  | [] => none
  | c :: rest =>
    if c = ' ' then some ([], rest)
    else
      match splitFirstSpace rest with
      | none => none
      | some (a, b) => some (c :: a, b)

/-- Decimal digits to a natural number, most significant first. -/
def digitsToNat (cs : List Char) : Nat :=
  cs.foldl (fun acc c => acc * 10 + (c.toNat - 48)) 0

/-- Python `int(s)` on an already-stripped token: optional sign followed by
decimal digits, `none` on anything else (the `ValueError` path). -/
def pyInt : String → Option Int
  | ⟨'-' :: rest⟩ => if rest ≠ [] && rest.all Char.isDigit then some (-(digitsToNat rest : Int)) else none
  | ⟨'+' :: rest⟩ => if rest ≠ [] && rest.all Char.isDigit then some ((digitsToNat rest : Int)) else none
  | ⟨cs⟩ => if cs ≠ [] && cs.all Char.isDigit then some ((digitsToNat cs : Int)) else none

/-- Accumulator-based worker for `pyReadlines`. -/
def readlinesAux : List Char → List Char → List String
  | cur, [] => if cur = [] then [] else [⟨cur.reverse⟩]
  | cur, c :: rest =>
    if c = '\n' then ⟨(c :: cur).reverse⟩ :: readlinesAux [] rest
    else readlinesAux (c :: cur) rest

/-- Python `f.readlines()`: split the file content into lines, each keeping its
terminating newline; a final fragment without a newline is kept as-is. -/
def pyReadlines (s : String) : List String := readlinesAux [] s.data

/-- Python `f.writelines(lines)`: the file content is the concatenation. -/
def joinLines (lines : List String) : String := ⟨(lines.map String.data).flatten⟩

/-- Is `needle` an initial segment of `hay`? -/
def leadsList : List Char → List Char → Bool
  | [], _ => true
  | _ :: _, [] => false
  | a :: as, b :: bs => a = b && leadsList as bs

/-- Python `needle in hay` substring containment. -/
def containsSub : List Char → List Char → Bool
  | [], needle => leadsList needle []
  | c :: t, needle => leadsList needle (c :: t) || containsSub t needle

/-! Deck text store, from `deck_tools.py`. -/

/-- Embeds `_parse_card_line` (and the identical parse in `_process_deck_line`):
strip the line, split at the first space, parse the leading token as an integer
quantity; `none` on a blank line, a spaceless line, or a non-integer token. -/
def parseCardLine (line : String) : Option (Int × String) :=
  let l := pyStrip line
  if l.data = [] then none
  else
    match splitFirstSpace l.data with
    | none => none
    | some (qs, name) =>
      match pyInt ⟨qs⟩ with
      | some q => some (q, (⟨name⟩ : String))
      | none => none

/-- Lines appended by `_handle_card_modification`: the rewritten entry when the
new quantity is positive, nothing when the entry is removed. -/
def handleCardModificationLines (cardName : String) (newQuantity : Int) : List String :=
  if newQuantity > 0 then [toString newQuantity ++ " " ++ cardName ++ "\n"] else []

/-- Message returned by `_handle_card_modification`. -/
def handleCardModificationMsg (cardName : String) (oldQuantity newQuantity : Int) : String :=
  if newQuantity > 0 then
    "✅ " ++ cardName ++ ": " ++ toString oldQuantity ++ " → " ++ toString newQuantity
  else
    "🗑️ " ++ cardName ++ " removed from deck (quantity: " ++ toString oldQuantity ++ " → 0)"

/-- Embeds `_handle_card_not_found`: append a fresh entry when the change is
positive, otherwise report the not-found error. -/
def handleCardNotFound (newLines : List String) (cardName : String) (quantityChange : Int) :
    List String × String :=
  if quantityChange > 0 then
    (newLines ++ [toString quantityChange ++ " " ++ cardName ++ "\n"],
     "➕ " ++ cardName ++ " added to deck (quantity: " ++ toString quantityChange ++ ")")
  else
    (newLines, "❌ Error: Card \x27" ++ cardName ++ "\x27 not found in deck")

/-- One iteration of the loop in `_process_deck_modification`; the accumulator
is `(new_lines, card_found, result_msg)`.  Blank lines parse to `none`, so the
source's separate blank-line branch and its unparseable-line branch coincide
here: both append the line unchanged. -/
def deckModStep (cardName : String) (quantityChange : Int)
    (acc : List String × Bool × String) (line : String) : List String × Bool × String :=
  match acc with
  | (newLines, found, msg) =>
    match parseCardLine line with
    | none => (newLines ++ [line], found, msg)
    | some (q, name) =>
      if pyLower name = pyLower cardName then
        (newLines ++ handleCardModificationLines name (q + quantityChange), true,
         handleCardModificationMsg name q (q + quantityChange))
      else (newLines ++ [line], found, msg)

/-- Embeds `_process_deck_modification`. -/
def processDeckModification (deckLines : List String) (cardName : String) (quantityChange : Int) :
    List String × String :=
  let r := deckLines.foldl (deckModStep cardName quantityChange) ([], false, "")
  if r.2.1 then (r.1, r.2.2)
  else handleCardNotFound r.1 cardName quantityChange

/-- Embeds `modify_deck_card` on the list of lines read from the deck file:
the last line (when non-blank) is held back as the commander, the two final
lines are cut off to obtain the searchable region `lines[:-2]`, and the
commander is re-appended after a fresh blank separator. -/
def modifyDeckCard (lines : List String) (cardName : String) (quantityChange : Int) :
    List String × String :=
  let commanderLine : Option String :=
    match lines.getLast? with
    | some l => if pyStrip l ≠ "" then some l else none
    | none => none
  let deckLines := if lines.length > 1 then lines.dropLast.dropLast else []
  let pr := processDeckModification deckLines cardName quantityChange
  let newLines :=
    match commanderLine with
    | some c => pr.1 ++ ["\n", c]
    | none => pr.1
  (newLines, pr.2)

/-! Deck statistics, from `deck_tools.py`. -/

/-- Result record of `_calculate_deck_stats`; `multiple_copies` is derived from
`cardCounts` by `multipleCopies` below. -/
structure DeckStats where
  totalCards : Int
  uniqueCards : Int
  commander : Option String
  cardCounts : List (String × Int)
deriving DecidableEq

/-- Python `card_counts[name] = q`: update in place or append. -/
def setCount : List (String × Int) → String → Int → List (String × Int)
  | [], k, v => [(k, v)]
  | (k0, v0) :: rest, k, v =>
    if k0 = k then (k0, v) :: rest else (k0, v0) :: setCount rest k v

/-- One iteration of the loop in `_calculate_deck_stats`: a parseable line is
the commander when its stripped text equals the stripped text of the last line,
otherwise it is counted into the totals; either way its count is recorded. -/
def deckStatsStep (lastStripped : String) (st : DeckStats) (line : String) : DeckStats :=
  match parseCardLine line with
  | none => st
  | some (q, name) =>
    let st' :=
      if pyStrip line = lastStripped then { st with commander := some name }
      else { st with totalCards := st.totalCards + q, uniqueCards := st.uniqueCards + 1 }
    { st' with cardCounts := setCount st'.cardCounts name q }

/-- Embeds `_calculate_deck_stats`. -/
def calculateDeckStats (lines : List String) : DeckStats :=
  let lastStripped := pyStrip (lines.getLast?.getD "")
  let st := lines.foldl (deckStatsStep lastStripped) ⟨0, 0, none, []⟩
  match st.commander with
  | some _ => { st with totalCards := st.totalCards + 1, uniqueCards := st.uniqueCards + 1 }
  | none => st

/-- Python dict comprehension for `multiple_copies`. -/
def multipleCopies (stats : DeckStats) : List (String × Int) :=
  stats.cardCounts.filter (fun p => p.2 > 1 && some p.1 ≠ stats.commander)

/-- Embeds `_count_deck_cards` (used by `view_deck`): same commander rule as
`_calculate_deck_stats`, returning `(total_cards, commander)`. -/
def countDeckCards (lines : List String) : Int × Option String :=
  let lastStripped := pyStrip (lines.getLast?.getD "")
  let r := lines.foldl
    (fun (acc : Int × Option String) line =>
      match parseCardLine line with
      | none => acc
      | some (q, name) =>
        if pyStrip line = lastStripped then (acc.1, some name)
        else (acc.1 + q, acc.2))
    (0, none)
  match r.2 with
  | some _ => (r.1 + 1, r.2)
  | none => r

/-! Mana curve engine, from `scryfall_integration.py`.  Card metadata is the
part of the cached Scryfall record the engine reads; resolution through the
card-info cache (`get_cmc` / `get_type_line`) is modelled as a pure lookup
`db : String → Option CardInfo` standing for "what `get_card_info` returns for
this name during the computation". -/

/-- Fields of the Scryfall card record that the mana-curve engine reads. -/
structure CardInfo where
  cmc : Nat
  typeLine : String
deriving DecidableEq

/-- Embeds `ScryfallCache.get_cmc` as a pure lookup. -/
def getCmc (db : String → Option CardInfo) (name : String) : Option Nat :=
  (db name).map CardInfo.cmc

/-- Embeds `ScryfallCache.get_type_line` as a pure lookup. -/
def getTypeLine (db : String → Option CardInfo) (name : String) : Option String :=
  (db name).map CardInfo.typeLine

/-- The `stats` dictionary of `calculate_mana_curve` together with the bucket
mapping: integer keys are the function `curve` (the source initialises keys
0..7 to 0; keys outside 0..7 are never touched), and the string key `"7+"` is
the field `sevenPlus`. -/
structure CurveStats where
  curve : Nat → Int
  sevenPlus : Int
  totalCards : Int
  lands : Int
  nonlands : Int
  commanderCmc : Nat
  failedCards : List String

/-- The freshly initialised curve and stats of `calculate_mana_curve`. -/
def initCurveStats : CurveStats :=
  { curve := fun _ => 0, sevenPlus := 0, totalCards := 0, lands := 0, nonlands := 0,
    commanderCmc := 0, failedCards := [] }

/-- Python `type_line and 'Land' in type_line if type_line else False`. -/
def isLandTypeLine (tl : String) : Bool :=
  tl ≠ "" && containsSub tl.data "Land".data

/-- The `is_land` test of `_update_curve_stats`. -/
def curveIsLand (db : String → Option CardInfo) (cardName : String) : Bool :=
  match getTypeLine db cardName with
  | some tl => isLandTypeLine tl
  | none => false

/-- Embeds `_update_curve_stats`.  The source increments `total_cards` after
the branch on commander/land/nonland; here each resolved branch carries the
increment, which is the same assignment. -/
def updateCurveStats (db : String → Option CardInfo) (st : CurveStats)
    (quantity : Int) (cardName : String) (isCommander : Bool) : CurveStats :=
  match getCmc db cardName with
  | none => { st with failedCards := st.failedCards ++ [cardName] }
  | some cmc =>
    if isCommander then
      { st with commanderCmc := cmc, totalCards := st.totalCards + quantity }
    else if curveIsLand db cardName then
      { st with lands := st.lands + quantity, totalCards := st.totalCards + quantity }
    else if cmc ≥ 7 then
      { st with
        nonlands := st.nonlands + quantity,
        sevenPlus := st.sevenPlus + quantity,
        totalCards := st.totalCards + quantity }
    else
      { st with
        nonlands := st.nonlands + quantity,
        curve := Function.update st.curve cmc (st.curve cmc + quantity),
        totalCards := st.totalCards + quantity }

/-- Embeds `_process_deck_line`: the same parse as `_parse_card_line`, tagged
with the commander flag `is_last_line`. -/
def processDeckLine (line : String) (isLastLine : Bool) : Option (Int × String × Bool) :=
  match parseCardLine line with
  | some (q, name) => some (q, name, isLastLine)
  | none => none

/-- The loop of `calculate_mana_curve`: the commander flag passed to
`_process_deck_line` is `i == len(deck_lines) - 1`, that is, exactly the
physically last element of the list. -/
def curveLoop (db : String → Option CardInfo) (st : CurveStats) : List String → CurveStats
  | [] => st
  | [line] =>
    match processDeckLine line true with
    | none => st
    | some (q, name, isC) => updateCurveStats db st q name isC
  | line :: next :: rest =>
    match processDeckLine line false with
    | none => curveLoop db st (next :: rest)
    | some (q, name, isC) => curveLoop db (updateCurveStats db st q name isC) (next :: rest)

/-- Embeds the fresh (non-cache-loaded) computation of `calculate_mana_curve`;
the deck-hash cache load/save around it is file I/O outside the computation
(`average_cmc`, a float, is likewise presentation derived after the loop). -/
def calculateManaCurve (db : String → Option CardInfo) (deckLines : List String) : CurveStats :=
  curveLoop db initCurveStats deckLines

/-- Sum of the integer buckets 0..6 of the curve. -/
def curveSum (st : CurveStats) : Int :=
  ∑ i in Finset.range 7, st.curve i

/-! Card info cache, from `scryfall_integration.py`.  The remote API and the
on-disk cache directory become explicit state: `respond` is what the Scryfall
endpoint answers for a name, and `store` maps a cache filename to its content.
The MD5 hex digest in the filename is modelled by the lowercased name itself
(an injective stand-in); cache reads are modelled as succeeding (a read error
in the source logs a warning and falls through to the remote fetch), and a
cache write failure is the `cacheWriteOk = false` case, which the source logs
and survives. -/

/-- Python `c.isalnum() or c in (' ', '-', '_')` (ASCII). -/
def safeChar (c : Char) : Bool := c.isAlphanum || c = ' ' || c = '-' || c = '_'

/-- Embeds `_get_cache_filename`: the transliterated name paired with the
(modelled) digest of the lowercased name. -/
def cacheFilename (cardName : String) : String × String :=
  (pyRstrip ⟨cardName.data.filter safeChar⟩, pyLower cardName)

/-- Outcome of one request to the Scryfall `cards/named` endpoint. -/
inductive RemoteResponse where
  | ok (data : CardInfo)
  | httpNotFound
  | httpError
  | connectionError
deriving DecidableEq

/-- The environment of a lookup: the remote endpoint and whether writing the
cache file succeeds. -/
structure RemoteEnv where
  respond : String → RemoteResponse
  cacheWriteOk : Bool

/-- The cache directory plus the count of remote requests issued so far. -/
structure CacheState where
  store : (String × String) → Option CardInfo
  remoteCalls : Nat

/-- Embeds `_fetch_from_scryfall`: issue one remote request; on HTTP 200 persist
the record (when the write succeeds) and return it; on HTTP 404, any other
status, or a connection error return `None` and persist nothing. -/
def fetchFromScryfall (env : RemoteEnv) (cardName : String) (cacheKey : String × String)
    (st : CacheState) : Option CardInfo × CacheState :=
  let st' := { st with remoteCalls := st.remoteCalls + 1 }
  match env.respond cardName with
  | RemoteResponse.ok d =>
    let st'' :=
      if env.cacheWriteOk then { st' with store := Function.update st'.store cacheKey (some d) }
      else st'
    (some d, st'')
  | RemoteResponse.httpNotFound => (none, st')
  | RemoteResponse.httpError => (none, st')
  | RemoteResponse.connectionError => (none, st')

/-- Embeds `ScryfallCache.get_card_info`: serve from the cache file when it
exists, otherwise fetch from the remote API. -/
def get_card_info (env : RemoteEnv) (cardName : String) (st : CacheState) :
    Option CardInfo × CacheState :=
  let key := cacheFilename cardName
  match st.store key with
  | some d => (some d, st)
  | none => fetchFromScryfall env cardName key st

/-! Helper notions used to state the theorems. -/

/-- Does this line parse and name-match `cardName` case-insensitively? -/
def isMatchLine (cardName : String) (line : String) : Bool :=
  match parseCardLine line with
  | none => false
  | some (_, name) => pyLower name = pyLower cardName

/-- What `_process_deck_modification` turns one searchable line into: matching
lines are rewritten from their own old quantity (or dropped at quantity ≤ 0),
all other lines pass through unchanged. -/
def lineTransform (cardName : String) (quantityChange : Int) (line : String) : List String :=
  match parseCardLine line with
  | none => [line]
  | some (q, name) =>
    if pyLower name = pyLower cardName then handleCardModificationLines name (q + quantityChange)
    else [line]

/-- Quantity and name of the last matching line of the list, if any. -/
def lastMatchData (cardName : String) : List String → Option (Int × String)
  | [] => none
  | line :: rest =>
    match lastMatchData cardName rest with
    | some r => some r
    | none =>
      match parseCardLine line with
      | none => none
      | some (q, name) =>
        if pyLower name = pyLower cardName then some (q, name) else none

/-- One curve-loop iteration with the commander flag off. -/
def curveStepMid (db : String → Option CardInfo) (st : CurveStats) (line : String) : CurveStats :=
  match parseCardLine line with
  | none => st
  | some (q, name) => updateCurveStats db st q name false

/-- One curve-loop iteration with the commander flag on. -/
def curveStepLast (db : String → Option CardInfo) (st : CurveStats) (line : String) : CurveStats :=
  match parseCardLine line with
  | none => st
  | some (q, name) => updateCurveStats db st q name true

/-- Stripped text of the last line, against which `_calculate_deck_stats`
compares every line. -/
def statsLastStripped (lines : List String) : String := pyStrip (lines.getLast?.getD "")

/-- The parseable entries whose stripped line text differs from `ls` — the
lines `_calculate_deck_stats` counts into the totals. -/
def entriesAgainst (ls : String) (lines : List String) : List (Int × String) :=
  lines.filterMap (fun l =>
    match parseCardLine l with
    | none => none
    | some p => if pyStrip l = ls then none else some p)

/-- Is some parseable line's stripped text equal to `ls` (a commander found)? -/
def commanderSeenAgainst (ls : String) (lines : List String) : Bool :=
  lines.any (fun l => (parseCardLine l).isSome && pyStrip l = ls)

/-- The countable (non-commander) entries of a stats computation. -/
def nonCommanderEntries (lines : List String) : List (Int × String) :=
  entriesAgainst (statsLastStripped lines) lines

/-- Whether the stats computation finds a commander. -/
def commanderSeen (lines : List String) : Bool :=
  commanderSeenAgainst (statsLastStripped lines) lines

/-- Follows the spec's words for the claim about `unique_cards` (a count of
distinct Library entries, plus one for the Commander): the Library is every
parseable entry except the last one, and distinctness is by card name. -/
def specUniqueCards (lines : List String) : Int :=
  let entries := lines.filterMap parseCardLine
  match entries with
  | [] => 0
  | _ => (((entries.dropLast).map Prod.snd).dedup).length + 1

/-! Concrete instances the counterexamples and witnesses evaluate. -/

/-- Deck file of the spec's Sol Ring removal scenario. -/
def c3File : String := "2 Sol Ring\n1 Arcane Signet\n\n1 Atraxa, Praetors\x27 Voice\n"

/-- Card database for the trailing-blank-line counterexample. -/
def c2Db : String → Option CardInfo := fun name =>
  if name = "Sol Ring" then some ⟨1, "Artifact"⟩
  else if name = "Atraxa" then some ⟨4, "Legendary Creature - Phyrexian Angel Horror"⟩
  else none

/-- Card database for the bucket-sum witness. -/
def c4Db : String → Option CardInfo := fun name =>
  if name = "Sol Ring" then some ⟨1, "Artifact"⟩
  else if name = "Island" then some ⟨0, "Basic Land - Island"⟩
  else if name = "Ulamog" then some ⟨10, "Legendary Creature - Eldrazi"⟩
  else if name = "Atraxa" then some ⟨4, "Legendary Creature - Phyrexian Angel Horror"⟩
  else none

/-- Deck lines with a duplicated library entry. -/
def c7Lines : List String := ["1 Sol Ring\n", "1 Sol Ring\n", "1 Atraxa\n"]

/-- A concrete card record. -/
def exCard : CardInfo := ⟨1, "Artifact"⟩

/-- An environment whose remote endpoint always answers HTTP 200 and whose
cache writes succeed. -/
def exEnvOk : RemoteEnv := ⟨fun _ => RemoteResponse.ok exCard, true⟩

/-- An environment whose remote endpoint always answers HTTP 404. -/
def exEnv404 : RemoteEnv := ⟨fun _ => RemoteResponse.httpNotFound, true⟩

/-- An empty cache that has issued no remote calls. -/
def exEmptyCache : CacheState := ⟨fun _ => none, 0⟩

/-! Characterization of the `_process_deck_modification` loop. -/

/-- The result message when a match was found, the fallback otherwise. -/
def lastMsgOr (default : String) (qc : Int) (o : Option (Int × String)) : String :=
  match o with
  | none => default
  | some p => handleCardModificationMsg p.2 p.1 (p.1 + qc)

theorem deckModStep_fold_char (cardName : String) (qc : Int) :
    ∀ (lines : List String) (nl : List String) (fd : Bool) (m : String),
      lines.foldl (deckModStep cardName qc) (nl, fd, m) =
        (nl ++ lines.flatMap (lineTransform cardName qc),
         fd || lines.any (isMatchLine cardName),
         lastMsgOr m qc (lastMatchData cardName lines)) := by
  intro lines
  induction lines with
  | nil =>
    intro nl fd m
    simp [lastMatchData, lastMsgOr]
  | cons line rest ih =>
    intro nl fd m
    cases hp : parseCardLine line with
    | none =>
      cases hlm : lastMatchData cardName rest with
      | none =>
        simp [deckModStep, hp, ih, lineTransform, isMatchLine, lastMatchData, hlm, lastMsgOr]
      | some r =>
        simp [deckModStep, hp, ih, lineTransform, isMatchLine, lastMatchData, hlm, lastMsgOr]
    | some p =>
      by_cases hmatch : pyLower p.2 = pyLower cardName
      · cases hlm : lastMatchData cardName rest with
        | none =>
          simp [deckModStep, hp, ih, lineTransform, isMatchLine, lastMatchData, hlm, lastMsgOr,
            hmatch]
        | some r =>
          simp [deckModStep, hp, ih, lineTransform, isMatchLine, lastMatchData, hlm, lastMsgOr,
            hmatch]
      · cases hlm : lastMatchData cardName rest with
        | none =>
          simp [deckModStep, hp, ih, lineTransform, isMatchLine, lastMatchData, hlm, lastMsgOr,
            hmatch]
        | some r =>
          simp [deckModStep, hp, ih, lineTransform, isMatchLine, lastMatchData, hlm, lastMsgOr,
            hmatch]

theorem lastMatchData_isSome (cardName : String) :
    ∀ lines : List String,
      (lastMatchData cardName lines).isSome = lines.any (isMatchLine cardName)
  | [] => by simp [lastMatchData]
  | line :: rest => by
    cases hlm : lastMatchData cardName rest with
    | none =>
      cases hp : parseCardLine line with
      | none =>
        simp [lastMatchData, hp, hlm, isMatchLine, ← lastMatchData_isSome cardName rest]
      | some p =>
        by_cases hmatch : pyLower p.2 = pyLower cardName
        · simp [lastMatchData, hp, hlm, isMatchLine, hmatch,
            ← lastMatchData_isSome cardName rest]
        · simp [lastMatchData, hp, hlm, isMatchLine, hmatch,
            ← lastMatchData_isSome cardName rest]
    | some r =>
      simp [lastMatchData, hlm, isMatchLine, List.any_cons,
        ← lastMatchData_isSome cardName rest]

theorem flatMap_of_no_match (cardName : String) (qc : Int) :
    ∀ lines : List String, lines.any (isMatchLine cardName) = false →
      lines.flatMap (lineTransform cardName qc) = lines
  | [], _ => rfl
  | line :: rest, h => by
    have hh := h
    simp only [List.any_cons, Bool.or_eq_false_iff] at hh
    cases hp : parseCardLine line with
    | none =>
      simp [lineTransform, hp, flatMap_of_no_match cardName qc rest hh.2]
    | some p =>
      have hnm : (pyLower p.2 = pyLower cardName) = False := by
        have := hh.1
        simp [isMatchLine, hp] at this
        simp [this]
      simp [lineTransform, hp, hnm, flatMap_of_no_match cardName qc rest hh.2]

theorem processDeckModification_char (lines : List String) (cardName : String) (qc : Int) :
    processDeckModification lines cardName qc =
      if lines.any (isMatchLine cardName) then
        (lines.flatMap (lineTransform cardName qc),
         lastMsgOr "" qc (lastMatchData cardName lines))
      else handleCardNotFound lines cardName qc := by
  unfold processDeckModification
  rw [deckModStep_fold_char]
  cases hany : lines.any (isMatchLine cardName) with
  | true => simp [hany]
  | false => simp [hany, flatMap_of_no_match cardName qc lines hany]

/-- C9: when several Library lines match the name case-insensitively, every
matching line is rewritten from its own old quantity plus the delta, and the
returned message is the one produced for the last matching line. -/
theorem modify_updates_every_match_reports_last
    (lines : List String) (cardName : String) (delta : Int) (q : Int) (name : String)
    (_hmulti : 2 ≤ (lines.filter (isMatchLine cardName)).length)
    (hlast : lastMatchData cardName lines = some (q, name)) :
    processDeckModification lines cardName delta =
      (lines.flatMap (lineTransform cardName delta),
       handleCardModificationMsg name q (q + delta)) := by
  have hany : lines.any (isMatchLine cardName) = true := by
    rw [← lastMatchData_isSome]
    simp [hlast]
  rw [processDeckModification_char]
  simp [hany, hlast, lastMsgOr]

/-- Witness for `modify_updates_every_match_reports_last`: two lines match
"Sol Ring"; both are rewritten from their own quantities and the message
reports the second. -/
theorem modify_updates_every_match_reports_last_witness :
    processDeckModification ["2 Sol Ring\n", "1 Arcane Signet\n", "3 sol ring\n"] "Sol Ring" 1 =
      (["3 Sol Ring\n", "1 Arcane Signet\n", "4 sol ring\n"], "✅ sol ring: 3 → 4") :=
  (modify_updates_every_match_reports_last
    ["2 Sol Ring\n", "1 Arcane Signet\n", "3 sol ring\n"] "Sol Ring" 1 3 "sol ring"
    (by decide) (by decide)).trans (by decide)

/-- C1 (amended): when no searchable Library line matches and the delta is
non-positive, the operation reports the not-found error, and the rewritten
file is byte-identical to the original when the file ends in a blank separator
line followed by a non-blank commander line (the separator the source drops
and re-creates must have been exactly a bare newline), and likewise when the
file is empty. -/
theorem modify_not_found_rewrites_byte_identical
    (xs : List String) (c cardName : String) (delta : Int)
    (hdelta : delta ≤ 0)
    (hcmd : pyStrip c ≠ "")
    (hnomatch : xs.any (isMatchLine cardName) = false) :
    modifyDeckCard (xs ++ ["\n", c]) cardName delta =
      (xs ++ ["\n", c], "❌ Error: Card \x27" ++ cardName ++ "\x27 not found in deck") ∧
    modifyDeckCard ([] : List String) cardName delta =
      ([], "❌ Error: Card \x27" ++ cardName ++ "\x27 not found in deck") := by
  refine ⟨?_, ?_⟩
  case refine_2 =>
    simp only [modifyDeckCard, List.getLast?_nil, List.length_nil, processDeckModification,
      List.foldl_nil, handleCardNotFound]
    rw [if_neg (by omega : ¬ delta > 0)]
    simp
  have hassoc : xs ++ ["\n", c] = (xs ++ ["\n"]) ++ [c] := by simp
  have hlast : (xs ++ ["\n", c]).getLast? = some c := by
    rw [hassoc]
    exact List.getLast?_concat _
  have hlen : (xs ++ ["\n", c]).length > 1 := by
    simp [List.length_append]
  have hdrop : (xs ++ ["\n", c]).dropLast.dropLast = xs := by
    rw [hassoc, List.dropLast_concat, List.dropLast_concat]
  have hpr : processDeckModification xs cardName delta =
      (xs, "❌ Error: Card \x27" ++ cardName ++ "\x27 not found in deck") := by
    rw [processDeckModification_char]
    simp only [hnomatch, Bool.false_eq_true, if_false, handleCardNotFound]
    rw [if_neg (by omega)]
  simp only [modifyDeckCard, hlast, hcmd, if_pos hlen, hdrop, hpr]
  simp [hcmd]

/-- Witness for `modify_not_found_rewrites_byte_identical`. -/
theorem modify_not_found_rewrites_byte_identical_witness :
    (modifyDeckCard (["2 Sol Ring\n"] ++ ["\n", "1 Atraxa\n"]) "Counterspell" (-1) =
      (["2 Sol Ring\n"] ++ ["\n", "1 Atraxa\n"],
       "❌ Error: Card \x27Counterspell\x27 not found in deck")) ∧
    modifyDeckCard ([] : List String) "Counterspell" (-1) =
      ([], "❌ Error: Card \x27Counterspell\x27 not found in deck") :=
  modify_not_found_rewrites_byte_identical ["2 Sol Ring\n"] "1 Atraxa\n" "Counterspell" (-1)
    (by decide) (by decide) (by decide)

/-- C1 is false as stated: for the one-line deck file `"1 Atraxa\n"` and a
non-positive delta on an absent card, the not-found message is returned but
the rewritten file is `"\n1 Atraxa\n"`, not byte-identical to the original. -/
theorem modify_not_found_changes_single_line_file :
    (modifyDeckCard (pyReadlines "1 Atraxa\n") "Sol Ring" (-1)).2 =
      "❌ Error: Card \x27Sol Ring\x27 not found in deck" ∧
    joinLines (modifyDeckCard (pyReadlines "1 Atraxa\n") "Sol Ring" (-1)).1 = "\n1 Atraxa\n" ∧
    ("\n1 Atraxa\n" : String) ≠ "1 Atraxa\n" := by
  decide

/-- C3: on the scenario deck file, the commander line is Atraxa, the searchable
Library parses to Sol Ring and Arcane Signet, and removing Sol Ring by -2
deletes its line, keeps Arcane Signet, the blank separator and the commander,
and reports the removal. -/
theorem sol_ring_removal_scenario :
    pyReadlines c3File =
      ["2 Sol Ring\n", "1 Arcane Signet\n", "\n", "1 Atraxa, Praetors\x27 Voice\n"] ∧
    (pyReadlines c3File).dropLast.dropLast.map parseCardLine =
      [some (2, "Sol Ring"), some (1, "Arcane Signet")] ∧
    parseCardLine "1 Atraxa, Praetors\x27 Voice\n" = some (1, "Atraxa, Praetors\x27 Voice") ∧
    modifyDeckCard (pyReadlines c3File) "Sol Ring" (-2) =
      (["1 Arcane Signet\n", "\n", "1 Atraxa, Praetors\x27 Voice\n"],
       "🗑️ Sol Ring removed from deck (quantity: 2 → 0)") := by
  decide

/-! Characterization and invariants of the mana-curve loop. -/

theorem curveLoop_singleton (db : String → Option CardInfo) (st : CurveStats) (line : String) :
    curveLoop db st [line] = curveStepLast db st line := by
  cases hp : parseCardLine line <;>
    simp [curveLoop, curveStepLast, processDeckLine, hp]

theorem curveLoop_cons (db : String → Option CardInfo) (st : CurveStats) (line : String)
    (rest : List String) (h : rest ≠ []) :
    curveLoop db st (line :: rest) = curveLoop db (curveStepMid db st line) rest := by
  cases rest with
  | nil => exact absurd rfl h
  | cons y ys =>
    cases hp : parseCardLine line <;>
      simp [curveLoop, curveStepMid, processDeckLine, hp]

theorem curveLoop_append_last (db : String → Option CardInfo) (l : String) :
    ∀ (xs : List String) (st : CurveStats),
      curveLoop db st (xs ++ [l]) = curveStepLast db (xs.foldl (curveStepMid db) st) l
  | [], st => by simpa using curveLoop_singleton db st l
  | x :: xs, st => by
    have hne : xs ++ [l] ≠ [] := by simp
    rw [List.cons_append, curveLoop_cons db st x (xs ++ [l]) hne,
      curveLoop_append_last db l xs]
    simp

theorem curveLoop_preserves (db : String → Option CardInfo) (P : CurveStats → Prop)
    (hstep : ∀ st q name b, P st → P (updateCurveStats db st q name b)) :
    ∀ (lines : List String) (st : CurveStats), P st → P (curveLoop db st lines)
  | [], _, h => h
  | [line], st, h => by
    rw [curveLoop_singleton]
    unfold curveStepLast
    cases hp : parseCardLine line with
    | none => exact h
    | some p => exact hstep st p.1 p.2 true h
  | line :: next :: rest, st, h => by
    rw [curveLoop_cons db st line (next :: rest) (by simp)]
    refine curveLoop_preserves db P hstep (next :: rest) _ ?_
    unfold curveStepMid
    cases hp : parseCardLine line with
    | none => exact h
    | some p => exact hstep st p.1 p.2 false h

theorem updateCurveStats_comm_false (db : String → Option CardInfo) (st : CurveStats)
    (q : Int) (name : String) :
    (updateCurveStats db st q name false).commanderCmc = st.commanderCmc := by
  unfold updateCurveStats
  cases hg : getCmc db name with
  | none => rfl
  | some cmc =>
    cases hb : curveIsLand db name <;> by_cases h7 : cmc ≥ 7 <;> simp [hb, h7]

theorem foldl_curveStepMid_commanderCmc (db : String → Option CardInfo) :
    ∀ (xs : List String) (st : CurveStats),
      (xs.foldl (curveStepMid db) st).commanderCmc = st.commanderCmc
  | [], _ => rfl
  | x :: xs, st => by
    rw [List.foldl_cons, foldl_curveStepMid_commanderCmc db xs]
    unfold curveStepMid
    cases hp : parseCardLine x with
    | none => rfl
    | some p => exact updateCurveStats_comm_false db st p.1 p.2

/-- C2 (amended): the entry the mana-curve computation treats as Commander is
exactly the physically last line of the input list — the whole computation
equals folding every earlier line with the commander flag off and processing
the last line with the flag on — and the recorded commander CMC comes from the
last line alone: 0 when that line is blank, malformed, or unresolvable.  In
particular a trailing blank or malformed line means no entry at all is treated
as Commander, not the last non-blank parseable one. -/
theorem commander_is_physically_last_line (db : String → Option CardInfo)
    (xs : List String) (l : String) :
    calculateManaCurve db (xs ++ [l]) =
      curveStepLast db (xs.foldl (curveStepMid db) initCurveStats) l ∧
    (calculateManaCurve db (xs ++ [l])).commanderCmc =
      (match parseCardLine l with
       | none => 0
       | some p => (getCmc db p.2).getD 0) := by
  have h1 : calculateManaCurve db (xs ++ [l]) =
      curveStepLast db (xs.foldl (curveStepMid db) initCurveStats) l :=
    curveLoop_append_last db l xs initCurveStats
  refine ⟨h1, ?_⟩
  rw [h1]
  unfold curveStepLast
  cases hp : parseCardLine l with
  | none =>
    simp [foldl_curveStepMid_commanderCmc, initCurveStats]
  | some p =>
    unfold updateCurveStats
    cases hg : getCmc db p.2 with
    | none => simp [hg, foldl_curveStepMid_commanderCmc, initCurveStats]
    | some cmc => simp [hg]

/-- C2 is false as stated: with a trailing blank line, the last non-blank
parseable line (Atraxa, CMC 4) is not treated as Commander — the commander CMC
stays 0 and Atraxa is counted as a regular nonland into bucket 4. -/
theorem trailing_blank_line_loses_commander :
    getCmc c2Db "Atraxa" = some 4 ∧
    (calculateManaCurve c2Db ["1 Sol Ring", "1 Atraxa", ""]).commanderCmc = 0 ∧
    (calculateManaCurve c2Db ["1 Sol Ring", "1 Atraxa", ""]).curve 4 = 1 ∧
    (calculateManaCurve c2Db ["1 Sol Ring", "1 Atraxa", ""]).nonlands = 2 := by
  decide

theorem curveSum_update (f : Nat → Int) (c : Nat) (hc : c < 7) (q : Int) :
    (∑ i in Finset.range 7, Function.update f c (f c + q) i) =
      (∑ i in Finset.range 7, f i) + q := by
  have hmem : c ∈ Finset.range 7 := Finset.mem_range.mpr hc
  rw [Finset.sum_update_of_mem hmem, Finset.sum_eq_sum_diff_singleton_add hmem f]
  ring

theorem updateCurveStats_bucket_inv (db : String → Option CardInfo) (st : CurveStats)
    (q : Int) (name : String) (b : Bool)
    (h : curveSum st + st.sevenPlus = st.nonlands) :
    curveSum (updateCurveStats db st q name b) + (updateCurveStats db st q name b).sevenPlus
      = (updateCurveStats db st q name b).nonlands := by
  unfold updateCurveStats
  cases hg : getCmc db name with
  | none => simpa [hg, curveSum] using h
  | some cmc =>
    cases b with
    | true => simpa [hg, curveSum] using h
    | false =>
      cases hb : curveIsLand db name with
      | true => simpa [hg, hb, curveSum] using h
      | false =>
        by_cases h7 : cmc ≥ 7
        · simp only [hg, hb, curveSum] at h ⊢
          simp only [h7, if_true, Bool.false_eq_true, if_false]
          omega
        · have hlt : cmc < 7 := by omega
          simp only [hg, hb, curveSum] at h ⊢
          simp only [h7, if_false, Bool.false_eq_true]
          rw [curveSum_update st.curve cmc hlt q]
          omega

/-- C4: whenever the freshly computed curve has no failed cards, the counts in
buckets 0 through 6 plus the count in the 7+ bucket sum to the nonlands
count. -/
theorem curve_buckets_sum_to_nonlands (db : String → Option CardInfo) (lines : List String)
    (_hfail : (calculateManaCurve db lines).failedCards = []) :
    curveSum (calculateManaCurve db lines) + (calculateManaCurve db lines).sevenPlus
      = (calculateManaCurve db lines).nonlands := by
  refine curveLoop_preserves db (fun st => curveSum st + st.sevenPlus = st.nonlands)
    (fun st q name b h => updateCurveStats_bucket_inv db st q name b h) lines initCurveStats ?_
  simp [curveSum, initCurveStats]

/-- Witness for `curve_buckets_sum_to_nonlands` on a concrete deck with a
land, a high-CMC card, small-CMC cards and a commander, and no failed cards. -/
theorem curve_buckets_sum_to_nonlands_witness :
    curveSum (calculateManaCurve c4Db ["2 Sol Ring", "3 Island", "1 Ulamog", "1 Atraxa"]) +
        (calculateManaCurve c4Db ["2 Sol Ring", "3 Island", "1 Ulamog", "1 Atraxa"]).sevenPlus
      = (calculateManaCurve c4Db ["2 Sol Ring", "3 Island", "1 Ulamog", "1 Atraxa"]).nonlands :=
  curve_buckets_sum_to_nonlands c4Db ["2 Sol Ring", "3 Island", "1 Ulamog", "1 Atraxa"]
    (by decide)

theorem updateCurveStats_curve_seven (db : String → Option CardInfo) (st : CurveStats)
    (q : Int) (name : String) (b : Bool) (h : st.curve 7 = 0) :
    (updateCurveStats db st q name b).curve 7 = 0 := by
  unfold updateCurveStats
  cases hg : getCmc db name with
  | none => simpa [hg] using h
  | some cmc =>
    cases b with
    | true => simpa [hg] using h
    | false =>
      cases hb : curveIsLand db name with
      | true => simpa [hg, hb] using h
      | false =>
        by_cases h7 : cmc ≥ 7
        · simpa [hg, hb, h7] using h
        · have hne : (7 : Nat) ≠ cmc := by omega
          simp only [hg, hb, h7, if_false, Bool.false_eq_true]
          simpa [Function.update_noteq hne] using h

/-- C10: the freshly computed curve always carries 0 in the integer bucket 7 —
entries of CMC at least 7 go to the separate 7+ bucket only, so the integer
key 7 is initialized but never incremented. -/
theorem integer_bucket_seven_stays_zero (db : String → Option CardInfo) (lines : List String) :
    (calculateManaCurve db lines).curve 7 = 0 :=
  curveLoop_preserves db (fun st => st.curve 7 = 0)
    (fun st q name b h => updateCurveStats_curve_seven db st q name b h) lines initCurveStats rfl

/-! Card-info cache behaviour. -/

theorem get_card_info_hit (env : RemoteEnv) (name : String) (st : CacheState) (d : CardInfo)
    (h : st.store (cacheFilename name) = some d) :
    get_card_info env name st = (some d, st) := by
  simp only [get_card_info, h]

theorem fetch_remoteCalls (env : RemoteEnv) (name : String) (key : String × String)
    (st : CacheState) :
    (fetchFromScryfall env name key st).2.remoteCalls = st.remoteCalls + 1 := by
  unfold fetchFromScryfall
  cases hr : env.respond name <;> by_cases hw : env.cacheWriteOk <;> simp [hr, hw]

/-- C5: if a first lookup of a name succeeds and its record is persisted, a
second lookup of the same name returns the same record with the state — in
particular the remote-call count — unchanged, and the first lookup itself
issued at most one remote call. -/
theorem cache_idempotent (env : RemoteEnv) (name : String) (st : CacheState) (d : CardInfo)
    (_h1 : (get_card_info env name st).1 = some d)
    (h2 : (get_card_info env name st).2.store (cacheFilename name) = some d) :
    get_card_info env name (get_card_info env name st).2 =
      (some d, (get_card_info env name st).2) ∧
    (get_card_info env name st).2.remoteCalls ≤ st.remoteCalls + 1 := by
  refine ⟨get_card_info_hit env name _ d h2, ?_⟩
  cases hs : st.store (cacheFilename name) with
  | some e =>
    simp only [get_card_info, hs]
    exact Nat.le_succ _
  | none =>
    simp only [get_card_info, hs]
    exact Nat.le_of_eq (fetch_remoteCalls env name _ st)

/-- Witness for `cache_idempotent`: cold cache, remote answers HTTP 200, cache
write succeeds. -/
theorem cache_idempotent_witness :
    get_card_info exEnvOk "Sol Ring" ((get_card_info exEnvOk "Sol Ring" exEmptyCache).2) =
      (some exCard, (get_card_info exEnvOk "Sol Ring" exEmptyCache).2) ∧
    (get_card_info exEnvOk "Sol Ring" exEmptyCache).2.remoteCalls ≤
      exEmptyCache.remoteCalls + 1 :=
  cache_idempotent exEnvOk "Sol Ring" exEmptyCache exCard (by decide) (by decide)

/-- C6: when the cache misses and the remote lookup fails — HTTP 404, another
non-2xx status, or a connection error — the lookup returns `None` and persists
nothing (the store is unchanged, only the remote-call count grows), so an
immediately repeated lookup of the same name issues a remote request again. -/
theorem failed_lookup_not_cached (env : RemoteEnv) (name : String) (st : CacheState)
    (hmiss : st.store (cacheFilename name) = none)
    (hfail : env.respond name = RemoteResponse.httpNotFound ∨
             env.respond name = RemoteResponse.httpError ∨
             env.respond name = RemoteResponse.connectionError) :
    get_card_info env name st = (none, { st with remoteCalls := st.remoteCalls + 1 }) ∧
    get_card_info env name { st with remoteCalls := st.remoteCalls + 1 } =
      (none, { st with remoteCalls := st.remoteCalls + 2 }) := by
  have main : ∀ s : CacheState, s.store (cacheFilename name) = none →
      get_card_info env name s = (none, { s with remoteCalls := s.remoteCalls + 1 }) := by
    intro s hs
    simp only [get_card_info, fetchFromScryfall, hs]
    rcases hfail with h | h | h <;> simp [h]
  exact ⟨main st hmiss, main { st with remoteCalls := st.remoteCalls + 1 } hmiss⟩

/-- Witness for `failed_lookup_not_cached`: cold cache, remote answers
HTTP 404 both times. -/
theorem failed_lookup_not_cached_witness :
    get_card_info exEnv404 "Black Lotus" exEmptyCache =
      (none, { exEmptyCache with remoteCalls := exEmptyCache.remoteCalls + 1 }) ∧
    get_card_info exEnv404 "Black Lotus"
        { exEmptyCache with remoteCalls := exEmptyCache.remoteCalls + 1 } =
      (none, { exEmptyCache with remoteCalls := exEmptyCache.remoteCalls + 2 }) :=
  failed_lookup_not_cached exEnv404 "Black Lotus" exEmptyCache (by decide) (Or.inl (by decide))

/-! Characterization of `_calculate_deck_stats`. -/

theorem stats_foldl_total (ls : String) :
    ∀ (lines : List String) (acc : DeckStats),
      (lines.foldl (deckStatsStep ls) acc).totalCards =
        acc.totalCards + ((entriesAgainst ls lines).map Prod.fst).sum
  | [], acc => by simp [entriesAgainst]
  | line :: rest, acc => by
    rw [List.foldl_cons, stats_foldl_total ls rest]
    cases hp : parseCardLine line with
    | none => simp [deckStatsStep, hp, entriesAgainst]
    | some p =>
      by_cases hs : pyStrip line = ls
      · simp [deckStatsStep, hp, hs, entriesAgainst]
      · simp only [deckStatsStep, hp, hs, entriesAgainst, List.filterMap_cons, if_false]
        simp [entriesAgainst]
        omega

theorem stats_foldl_unique (ls : String) :
    ∀ (lines : List String) (acc : DeckStats),
      (lines.foldl (deckStatsStep ls) acc).uniqueCards =
        acc.uniqueCards + ((entriesAgainst ls lines).length : Int)
  | [], acc => by simp [entriesAgainst]
  | line :: rest, acc => by
    rw [List.foldl_cons, stats_foldl_unique ls rest]
    cases hp : parseCardLine line with
    | none => simp [deckStatsStep, hp, entriesAgainst]
    | some p =>
      by_cases hs : pyStrip line = ls
      · simp [deckStatsStep, hp, hs, entriesAgainst]
      · simp only [deckStatsStep, hp, hs, entriesAgainst, List.filterMap_cons, if_false]
        simp [entriesAgainst]
        omega

theorem stats_foldl_commander (ls : String) :
    ∀ (lines : List String) (acc : DeckStats),
      (lines.foldl (deckStatsStep ls) acc).commander.isSome =
        (acc.commander.isSome || commanderSeenAgainst ls lines)
  | [], acc => by simp [commanderSeenAgainst]
  | line :: rest, acc => by
    rw [List.foldl_cons, stats_foldl_commander ls rest]
    cases hp : parseCardLine line with
    | none => simp [deckStatsStep, hp, commanderSeenAgainst]
    | some p =>
      by_cases hs : pyStrip line = ls
      · simp [deckStatsStep, hp, hs, commanderSeenAgainst]
      · simp [deckStatsStep, hp, hs, commanderSeenAgainst]

/-- C7 (amended): the stats computation keys off textual equality with the
last line, not off position or name distinctness: `total_cards` is the sum of
the quantities of the parseable lines whose stripped text differs from the
stripped last line, plus 1 when some parseable line textually equals it (the
commander, counted as 1 regardless of its listed quantity), and
`unique_cards` counts those same lines with multiplicity — duplicate entries
of one name are counted once per line — plus 1 for the commander. -/
theorem deck_stats_counts_characterized (lines : List String) :
    (calculateDeckStats lines).totalCards =
      ((nonCommanderEntries lines).map Prod.fst).sum +
        (if commanderSeen lines then 1 else 0) ∧
    (calculateDeckStats lines).uniqueCards =
      ((nonCommanderEntries lines).length : Int) +
        (if commanderSeen lines then 1 else 0) := by
  have hT := stats_foldl_total (statsLastStripped lines) lines ⟨0, 0, none, []⟩
  have hU := stats_foldl_unique (statsLastStripped lines) lines ⟨0, 0, none, []⟩
  have hC := stats_foldl_commander (statsLastStripped lines) lines ⟨0, 0, none, []⟩
  simp only [statsLastStripped] at hT hU hC
  simp only [calculateDeckStats, nonCommanderEntries, commanderSeen, statsLastStripped]
  cases hcm : (lines.foldl (deckStatsStep (pyStrip (lines.getLast?.getD ""))) ⟨0, 0, none, []⟩).commander with
  | some name =>
    have hseen : commanderSeenAgainst (pyStrip (lines.getLast?.getD "")) lines = true := by
      rw [hcm] at hC
      simpa using hC.symm
    dsimp only
    simp only [hseen, if_true]
    exact ⟨by rw [hT]; omega, by rw [hU]; omega⟩
  | none =>
    have hseen : commanderSeenAgainst (pyStrip (lines.getLast?.getD "")) lines = false := by
      rw [hcm] at hC
      simpa using hC.symm
    dsimp only
    simp only [hseen, Bool.false_eq_true, if_false]
    exact ⟨by rw [hT]; omega, by rw [hU]; omega⟩

/-- C7 is false as stated: a deck file with a duplicated Library line — the
`unique_cards` figure counts lines, not distinct entries: the computation
reports 3 where the claimed count of distinct Library entries plus the
Commander is 2. -/
theorem duplicate_lines_break_unique_count :
    (calculateDeckStats c7Lines).uniqueCards = 3 ∧
    specUniqueCards c7Lines = 2 ∧
    (calculateDeckStats c7Lines).uniqueCards ≠ specUniqueCards c7Lines := by
  decide
